import Mathlib

/-!
Verification of the sampling-and-aggregation core of a Rust desktop system
monitor (files `src/main.rs`, `src/models.rs`, `src/system_monitor.rs`,
`src/utils.rs`).

The embedding translates the core of the program into Lean:

* `f32`/`f64` values are modelled by `FVal`: an exact rational together with
  the IEEE special values NaN, +inf and -inf.  The divisions performed by the
  program are modelled exactly over ℚ (the claims under study concern
  zero denominators and NaN/infinity propagation, never rounding); negative
  zero is not modelled, since every float the program builds is derived from
  unsigned counters.
* `u64` arithmetic inside `calculate_disk_usage` is modelled by checked
  operations (`add64`, `sub64`) returning `Option Nat`: `none` is the
  overflow/underflow error branch of the Rust arithmetic.
* The `iced` runtime is an external collaborator: the provider data consumed
  by one `refresh_all` cycle is a `ProviderEnv` value, the `update` method is
  a function `SystemMonitor → Message → ProviderEnv → Option SystemMonitor`
  (`none` models a panic during the transition), and `subscription` returns
  the list of active periodic sources.
* The logger (`log_metrics` in `src/utils.rs`) writes JSON lines; the file is
  a `List Json`, and the three `.expect(...)` calls become `PanicOr.panicked`
  results parameterised by an `IoEnv` saying which I/O steps succeed.
* `Vec::sort_by` (a stable sort) is modelled by a stable insertion sort
  `isortLe` over the exact comparator of the source.
-/

namespace SysMon

/-- Model of an `f32`/`f64` value: an exact rational or an IEEE special
value.  (`-0.0` is not modelled; all floats in the program come from
unsigned counters.) -/
inductive FVal where
  | num (q : ℚ)
  | nan
  | inf
  | ninf
deriving DecidableEq

/-- IEEE division on the model (`x / y` in Rust on `f64`). -/
def fdiv : FVal → FVal → FVal
  | .nan, _ => .nan
  | _, .nan => .nan
  | .inf, .inf => .nan
  | .inf, .ninf => .nan
  | .ninf, .inf => .nan
  | .ninf, .ninf => .nan
  | .inf, .num b => if b < 0 then .ninf else .inf
  | .ninf, .num b => if b < 0 then .inf else .ninf
  | .num _, .inf => .num 0
  | .num _, .ninf => .num 0
  | .num a, .num b =>
    if b = 0 then (if a = 0 then .nan else if 0 < a then .inf else .ninf)
    else .num (a / b)

/-- IEEE multiplication on the model (`x * y` in Rust on `f64`). -/
def fmul : FVal → FVal → FVal
  | .nan, _ => .nan
  | _, .nan => .nan
  | .inf, .inf => .inf
  | .inf, .ninf => .ninf
  | .ninf, .inf => .ninf
  | .ninf, .ninf => .inf
  | .inf, .num b => if b = 0 then .nan else if 0 < b then .inf else .ninf
  | .num a, .inf => if a = 0 then .nan else if 0 < a then .inf else .ninf
  | .ninf, .num b => if b = 0 then .nan else if 0 < b then .ninf else .inf
  | .num a, .ninf => if a = 0 then .nan else if 0 < a then .ninf else .inf
  | .num a, .num b => .num (a * b)

/-- IEEE subtraction on the model (`x - y` in Rust on `f64`). -/
def fsub : FVal → FVal → FVal
  | .nan, _ => .nan
  | _, .nan => .nan
  | .inf, .inf => .nan
  | .ninf, .ninf => .nan
  | .inf, _ => .inf
  | .ninf, _ => .ninf
  | .num _, .inf => .ninf
  | .num _, .ninf => .inf
  | .num a, .num b => .num (a - b)

/-- Model of Rust `PartialOrd::partial_cmp` on floats: `none` exactly when
one operand is NaN. -/
def cmpF : FVal → FVal → Option Ordering
  | .nan, _ => none
  | _, .nan => none
  | .inf, .inf => some .eq
  | .inf, _ => some .gt
  | .ninf, .ninf => some .eq
  | .ninf, _ => some .lt
  | .num _, .inf => some .lt
  | .num _, .ninf => some .gt
  | .num a, .num b => some (compare a b)

/-- Model of Rust `x >= y` on floats (`PartialOrd::ge`). -/
def fge (a b : FVal) : Bool :=
  match cmpF a b with
  | some .gt => true
  | some .eq => true
  | _ => false

/-- Model of Rust `x > y` on floats (`PartialOrd::gt`). -/
def fgt (a b : FVal) : Bool :=
  match cmpF a b with
  | some .gt => true
  | _ => false

/-- Model of Rust `str::parse::<u64>()`: optional leading `+`, then at least
one ASCII digit, value bounded by `u64::MAX` (overflow is a parse error). -/
def parseU64 (s : String) : Option Nat :=
  let cs := s.data
  let cs := match cs with
    | '+' :: rest => rest
    | other => other
  if cs = [] then none
  else if cs.all (fun c => c.isDigit) then
    let v := cs.foldl (fun acc c => acc * 10 + (c.toNat - 48)) 0
    if v < 2 ^ 64 then some v else none
  else none

/-- Checked `u64` addition: `none` is the overflow error branch. -/
def add64 (a b : Nat) : Option Nat :=
  if a + b < 2 ^ 64 then some (a + b) else none

/-- Checked `u64` subtraction: `none` is the underflow error branch. -/
def sub64 (a b : Nat) : Option Nat :=
  if b ≤ a then some (a - b) else none

/-- `src/models.rs`: `SystemBaseInfo`. -/
structure SystemBaseInfo where
  system_name : String
  kernal_version : String
  os_version : String
  host_name : String
deriving DecidableEq

/-- `src/models.rs`: `DisksInfo` (one entry per disk). -/
structure DisksInfo where
  name : String
  kind : String
  mount : String
  total_disk : Nat
  free_disk : Nat
  used_disk_percent : FVal
deriving DecidableEq

/-- `src/models.rs`: `Process` (one entry per sampled process). -/
structure Process where
  id : Nat
  name : String
  cpu_usage_percent : FVal
  memory_usage_percent : FVal
deriving DecidableEq

/-- `src/models.rs`: `SystemMonitor`, the application state.  The `sysinfo`
handles `system`, `disks`, `networks` held by the Rust struct are the
external metrics provider; the data they yield during one refresh cycle is
passed to the transition function as a `ProviderEnv` instead. -/
structure SystemMonitor where
  system_base_info : SystemBaseInfo
  cpu_usage : FVal
  no_of_processes : Nat
  physical_cores : Nat
  logical_processors : Nat
  processors_info : List (String × FVal)
  memory_usage : Nat × Nat
  swap_memory_usage : Nat × Nat
  disk_usage : Nat × Nat
  disks_info : List DisksInfo
  network_sent : Nat
  network_received : Nat
  processes : List Process
  is_monitoring : Bool
  save_to_file : Bool
  interval_in_secs : String
deriving DecidableEq

/-- Raw per-disk data exposed by the provider (`sysinfo::Disk`). -/
structure DiskRaw where
  name : String
  kind : String
  mount : String
  total_space : Nat
  available_space : Nat
deriving DecidableEq

/-- Raw per-process data exposed by the provider (`sysinfo::Process`). -/
structure ProcRaw where
  pid : Nat
  name : String
  cpu_usage : FVal
  memory : Nat
deriving DecidableEq

/-- Raw per-interface network counters exposed by the provider. -/
structure NetRaw where
  transmitted : Nat
  received : Nat
deriving DecidableEq

/-- The data one `refresh_all` cycle of the provider yields. -/
structure ProviderEnv where
  global_cpu_usage : FVal
  cpus : List (String × FVal)
  physical_core_count : Option Nat
  used_memory : Nat
  total_memory : Nat
  used_swap : Nat
  total_swap : Nat
  disks : List DiskRaw
  networks : List NetRaw
  processes : List ProcRaw
deriving DecidableEq

/-- `src/models.rs`: the `Message` enum. -/
inductive Message where
  | intervalChanged (s : String)
  | tick
  | toggleMonitoring
  | toggleSaveToFile (b : Bool)
  | logToFile
deriving DecidableEq

/-- The total fold of `calculate_disk_usage` (`src/utils.rs:12`):
`disks.iter().fold(0, |acc, disk| acc + disk.total_space())` with checked
`u64` addition. -/
def sumTotal64 (acc : Nat) : List DiskRaw → Option Nat
  | [] => some acc
  | d :: ds =>
    match add64 acc d.total_space with
    | some acc2 => sumTotal64 acc2 ds
    | none => none

/-- The used fold of `calculate_disk_usage` (`src/utils.rs:13-15`):
`fold(0, |acc, disk| acc + (disk.total_space() - disk.available_space()))`
with checked `u64` subtraction and addition. -/
def sumUsed64 (acc : Nat) : List DiskRaw → Option Nat
  | [] => some acc
  | d :: ds =>
    match sub64 d.total_space d.available_space with
    | none => none
    | some u =>
      match add64 acc u with
      | some acc2 => sumUsed64 acc2 ds
      | none => none

/-- `src/utils.rs:11-17`: `calculate_disk_usage`, returning
`(used_disk, total_disk)`; `none` models the arithmetic error branch. -/
def calculate_disk_usage (disks : List DiskRaw) : Option (Nat × Nat) :=
  match sumTotal64 0 disks with
  | none => none
  | some total =>
    match sumUsed64 0 disks with
    | none => none
    | some used => some (used, total)

/-- The per-disk percentage expression of `src/system_monitor.rs:484-487`:
`((total as f64 - available as f64) / total as f64) * 100.`. -/
def diskPercent (t a : Nat) : FVal :=
  fmul (fdiv (fsub (.num (t : ℚ)) (.num (a : ℚ))) (.num (t : ℚ))) (.num 100)

/-- The `disks_info` rebuild in the `Tick` arm of `update`
(`src/system_monitor.rs:475-489`): no guard on a zero total. -/
def tickDisksInfo (disks : List DiskRaw) : List DisksInfo :=
  disks.map fun d =>
    ⟨d.name, d.kind, d.mount, d.total_space, d.available_space,
      diskPercent d.total_space d.available_space⟩

/-- The `disks_info` construction in `new` (`src/system_monitor.rs:331-347`):
the percentage is guarded by `total_disk > 0`, where `total_disk` is the
aggregate total returned by `calculate_disk_usage`, not the per-disk
total being divided by. -/
def newDisksInfo (disks : List DiskRaw) : Option (List DisksInfo) :=
  (calculate_disk_usage disks).map fun du =>
    disks.map fun d =>
      ⟨d.name, d.kind, d.mount, d.total_space, d.available_space,
        if 0 < du.2 then diskPercent d.total_space d.available_space
        else .num 0⟩

/-- Per-process memory percentage (`src/system_monitor.rs:505-506` and
`405-407`): `(process.memory() as f64 / total_memory as f64) * 100.0`. -/
def memPercent (memBytes totalMem : Nat) : FVal :=
  fmul (fdiv (.num (memBytes : ℚ)) (.num (totalMem : ℚ))) (.num 100)

/-- The process list rebuilt in the `Tick` arm, in provider order, before
sorting (`src/system_monitor.rs:502-514`). -/
def buildProcs (env : ProviderEnv) : List Process :=
  env.processes.map fun p =>
    ⟨p.pid, p.name, p.cpu_usage, memPercent p.memory env.total_memory⟩

/-- The process list built in `new` (`src/system_monitor.rs:394-417`):
the CPU percentage is gated by `cpu_time_diff > 0.0` and processes below
the `0.01` memory-percent threshold are dropped. -/
def newProcesses (env : ProviderEnv) (cpuTimeDiff : FVal) : List Process :=
  env.processes.filterMap fun p =>
    let cpuP := if fgt cpuTimeDiff (.num 0) then p.cpu_usage else .num 0
    let mp := memPercent p.memory env.total_memory
    if fge mp (.num (1 / 100)) then some ⟨p.pid, p.name, cpuP, mp⟩
    else none

/-- The comparator passed to `sort_by` (`src/system_monitor.rs:516-520`):
`b.memory_usage_percent.partial_cmp(&a.memory_usage_percent)
  .unwrap_or(Ordering::Less)`, and the sort keeps `a` no later than `b`
exactly when the comparator does not return `Greater`. -/
def rustLe (a b : Process) : Bool :=
  match cmpF b.memory_usage_percent a.memory_usage_percent with
  | some Ordering.gt => false
  | _ => true

/-- Stable insertion: `x` is placed before the first element `y` with
`le x y`. -/
def insertLe {α : Type} (le : α → α → Bool) (x : α) : List α → List α
  | [] => [x]
  | y :: ys => if le x y then x :: y :: ys else y :: insertLe le x ys

/-- Stable insertion sort: the model of `Vec::sort_by` (a stable sort).
For any comparator inducing a total preorder — the only case in which Rust
specifies the resulting order — every stable sort produces this list. -/
def isortLe {α : Type} (le : α → α → Bool) : List α → List α
  | [] => []
  | x :: xs => insertLe le x (isortLe le xs)

/-- `self.processes.sort_by(...)` of the `Tick` arm. -/
def sortByMem (l : List Process) : List Process := isortLe rustLe l

/-- The final process list after a `Tick`: rebuild in provider order, then
stable-sort by descending memory percentage. -/
def tickProcesses (env : ProviderEnv) : List Process :=
  sortByMem (buildProcs env)

/-- The network-sent fold of the `Tick` arm (`src/system_monitor.rs:492-495`). -/
def netSentSum (env : ProviderEnv) : Nat :=
  env.networks.foldl (fun acc n => acc + n.transmitted) 0

/-- The network-received fold of the `Tick` arm (`src/system_monitor.rs:496-499`). -/
def netRecvSum (env : ProviderEnv) : Nat :=
  env.networks.foldl (fun acc n => acc + n.received) 0

/-- `src/system_monitor.rs:449-541`: the `update` method.  `none` models a
panic inside the transition (the arithmetic error branch of
`calculate_disk_usage`).  The `LogToFile` arm leaves the state unchanged;
its file side effect is `update_log` below. -/
def update (m : SystemMonitor) (msg : Message) (env : ProviderEnv) :
    Option SystemMonitor :=
  match msg with
  | .tick =>
    if m.is_monitoring then
      match calculate_disk_usage env.disks with
      | none => none
      | some du =>
        some { m with
          cpu_usage := env.global_cpu_usage
          no_of_processes := env.processes.length
          processors_info := env.cpus
          physical_cores := env.physical_core_count.getD 0
          logical_processors := env.cpus.length
          memory_usage := (env.used_memory, env.total_memory)
          swap_memory_usage := (env.used_swap, env.total_swap)
          disk_usage := du
          disks_info := tickDisksInfo env.disks
          network_sent := netSentSum env
          network_received := netRecvSum env
          processes := tickProcesses env }
    else some m
  | .logToFile => some m
  | .toggleSaveToFile x => some { m with save_to_file := x }
  | .toggleMonitoring => some { m with is_monitoring := !m.is_monitoring }
  | .intervalChanged x => some { m with interval_in_secs := x }

/-- A periodic event source produced by `subscription`: the display tick or
the logging tick, with its period in seconds. -/
inductive Sub where
  | timeTick (period : Nat)
  | timeLog (period : Nat)
deriving DecidableEq

/-- `src/system_monitor.rs:587-617`: the `subscription` method.  When
monitoring, the interval text is parsed as `u64` with a fall-back default
of `3` on parse failure; the logging tick is added exactly when
`save_to_file` holds and the interval text is non-empty. -/
def subscription (m : SystemMonitor) : List Sub :=
  if m.is_monitoring then
    let interval_secs := (parseU64 m.interval_in_secs).getD 3
    if m.save_to_file && !(m.interval_in_secs == "") then
      [Sub.timeTick 1, Sub.timeLog interval_secs]
    else
      [Sub.timeTick 1]
  else []

/-- The periods of the active logging ticks in a subscription list. -/
def loggingPeriods (subs : List Sub) : List Nat :=
  subs.filterMap fun s =>
    match s with
    | .timeLog p => some p
    | _ => none

/-- A JSON value, at the level of the `serde_json` data model used by the
program: strings, `u64` numbers, float numbers, arrays and objects. -/
inductive Json where
  | str (s : String)
  | natNum (n : Nat)
  | floatNum (v : FVal)
  | arr (elems : List Json)
  | obj (fields : List (String × Json))

/-- `src/models.rs:15-24`: the `SystemData` record written to the log. -/
structure SystemData where
  timestamp : String
  cpu_usage_percent : FVal
  memory_usage_byte : Nat × Nat
  swap_memory_usage_byte : Nat × Nat
  disk_usage_byte : Nat × Nat
  network_sent_byte : Nat
  network_received_byte : Nat
deriving DecidableEq

/-- serde serialization of a `(u64, u64)` tuple: a two-element array. -/
def tupJson (p : Nat × Nat) : Json := .arr [.natNum p.1, .natNum p.2]

/-- `serde_json::to_string(&data)`: the derived `Serialize` writes the
fields of `SystemData` in declaration order under their Rust names. -/
def serializeSystemData (d : SystemData) : Json :=
  .obj [
    ("timestamp", .str d.timestamp),
    ("cpu_usage_percent", .floatNum d.cpu_usage_percent),
    ("memory_usage_byte", tupJson d.memory_usage_byte),
    ("swap_memory_usage_byte", tupJson d.swap_memory_usage_byte),
    ("disk_usage_byte", tupJson d.disk_usage_byte),
    ("network_sent_byte", .natNum d.network_sent_byte),
    ("network_received_byte", .natNum d.network_received_byte)]

/-- Field lookup in a JSON object (by name, as the derived `Deserialize`
accesses fields). -/
def getField (j : Json) (k : String) : Option Json :=
  match j with
  | .obj fs => fs.lookup k
  | _ => none

/-- Read a JSON value back as a string. -/
def asStr : Json → Option String
  | .str s => some s
  | _ => none

/-- Read a JSON value back as a `u64`. -/
def asNat : Json → Option Nat
  | .natNum n => some n
  | _ => none

/-- Read a JSON value back as a float. -/
def asFloat : Json → Option FVal
  | .floatNum v => some v
  | _ => none

/-- Read a JSON value back as a `(u64, u64)` tuple. -/
def asPair : Json → Option (Nat × Nat)
  | .arr [.natNum a, .natNum b] => some (a, b)
  | _ => none

/-- The derived `Deserialize` for `SystemData`: read each named field back
from the JSON object. -/
def parseSystemData (j : Json) : Option SystemData := do
  let ts ← asStr (← getField j "timestamp")
  let cpu ← asFloat (← getField j "cpu_usage_percent")
  let mem ← asPair (← getField j "memory_usage_byte")
  let swap ← asPair (← getField j "swap_memory_usage_byte")
  let disk ← asPair (← getField j "disk_usage_byte")
  let sent ← asNat (← getField j "network_sent_byte")
  let recv ← asNat (← getField j "network_received_byte")
  pure ⟨ts, cpu, mem, swap, disk, sent, recv⟩

/-- The field names of a serialized record, in order. -/
def fieldNames (j : Json) : List String :=
  match j with
  | .obj fs => fs.map (fun f => f.1)
  | _ => []

/-- Which of the three fallible I/O steps of `log_metrics` succeed:
serialization, opening `system_log.json` in append mode, and the
write+flush of the line. -/
structure IoEnv where
  serialize_ok : Bool
  open_ok : Bool
  write_ok : Bool
deriving DecidableEq

/-- Result of running code that may panic: `panicked msg` models an
`expect(msg)` firing, which aborts the process. -/
inductive PanicOr (α : Type) where
  | ok (a : α)
  | panicked (msg : String)

/-- The `SystemData` value built by `log_metrics` (`src/utils.rs:20-28`)
from the current state; the timestamp string comes from the clock, an
external collaborator. -/
def systemData (m : SystemMonitor) (ts : String) : SystemData :=
  ⟨ts, m.cpu_usage, m.memory_usage, m.swap_memory_usage, m.disk_usage,
    m.network_sent, m.network_received⟩

/-- `src/utils.rs:19-38`: `log_metrics`.  Each of the three `.expect`
calls panics with its message if the corresponding step fails; on success
exactly one record is appended to the log file. -/
def log_metrics (m : SystemMonitor) (ts : String) (io : IoEnv)
    (file : List Json) : PanicOr (List Json) :=
  if !io.serialize_ok then .panicked "Failed to serialize system data"
  else if !io.open_ok then .panicked "Failed to open log file"
  else if !io.write_ok then .panicked "Failed to write data to log file"
  else .ok (file ++ [serializeSystemData (systemData m ts)])

/-- The file side effect of one `update` call: only the `LogToFile` arm
touches the log (`src/system_monitor.rs:524-526`), unconditionally calling
`log_metrics`. -/
def update_log (m : SystemMonitor) (msg : Message) (ts : String)
    (io : IoEnv) (file : List Json) : PanicOr (List Json) :=
  match msg with
  | .logToFile => log_metrics m ts io file
  | _ => .ok file

/-- Record count of a log-write result. -/
def recCount : PanicOr (List Json) → Option Nat
  | .ok l => some l.length
  | .panicked _ => none

/-- An `IoEnv` in which every I/O step succeeds. -/
def ioOk : IoEnv := ⟨true, true, true⟩

/-- Concrete base-info fixture for witnesses. -/
def baseInfo : SystemBaseInfo := ⟨"linux", "6.1", "1.0", "host"⟩

/-- Concrete state fixture: monitoring on, logging on. -/
def mMon : SystemMonitor :=
  ⟨baseInfo, .num 0, 0, 0, 0, [], (0, 0), (0, 0), (0, 0), [], 0, 0, [],
    true, true, "1"⟩

/-- Concrete state fixture: logging off. -/
def mNoLog : SystemMonitor :=
  ⟨baseInfo, .num 0, 0, 0, 0, [], (0, 0), (0, 0), (0, 0), [], 0, 0, [],
    true, false, "1"⟩

/-- Concrete provider fixture: total memory 4, three processes with
memory percentages 50, 25 and 50 (a tie in provider order). -/
def envW : ProviderEnv :=
  ⟨.num 0, [("cpu0", .num 0)], some 1, 2, 4, 0, 0, [], [],
    [⟨1, "a", .num 0, 2⟩, ⟨2, "b", .num 0, 1⟩, ⟨3, "c", .num 0, 2⟩]⟩

/-- Concrete provider fixture with `total_memory = 0`. -/
def envZeroMem : ProviderEnv :=
  ⟨.num 0, [], none, 0, 0, 0, 0, [], [], [⟨1, "p", .num 0, 0⟩]⟩

/-- The state after one `Tick` from `mMon` under `envW`. -/
def sW : SystemMonitor := (update mMon .tick envW).getD mMon

/-- The state after one `Tick` from `mMon` under `envZeroMem`. -/
def sZ : SystemMonitor := (update mMon .tick envZeroMem).getD mMon

theorem mem_insertLe {α : Type} (le : α → α → Bool) (x : α) (l : List α)
    (a : α) : a ∈ insertLe le x l ↔ a = x ∨ a ∈ l := by
  induction l with
  | nil => simp [insertLe]
  | cons y ys ih =>
    by_cases h : le x y = true
    · simp only [insertLe, if_pos h, List.mem_cons]
    · simp only [insertLe, if_neg h, List.mem_cons, ih]
      tauto

theorem perm_insertLe {α : Type} (le : α → α → Bool) (x : α) (l : List α) :
    (insertLe le x l).Perm (x :: l) := by
  induction l with
  | nil => rfl
  | cons y ys ih =>
    by_cases h : le x y = true
    · simp [insertLe, h]
    · simp only [insertLe, if_neg h]
      exact (ih.cons y).trans (List.Perm.swap x y ys)

theorem perm_isortLe {α : Type} (le : α → α → Bool) (l : List α) :
    (isortLe le l).Perm l := by
  induction l with
  | nil => rfl
  | cons x xs ih =>
    exact (perm_insertLe le x (isortLe le xs)).trans (ih.cons x)

theorem pairwise_insertLe {α : Type} (le : α → α → Bool) (P : α → Prop)
    (htot : ∀ a b, P a → P b → le a b = true ∨ le b a = true)
    (htrans : ∀ a b c, P a → P b → P c →
      le a b = true → le b c = true → le a c = true)
    (x : α) (l : List α) (hx : P x) (hl : ∀ y ∈ l, P y)
    (hp : l.Pairwise (fun a b => le a b = true)) :
    (insertLe le x l).Pairwise (fun a b => le a b = true) := by
  induction l with
  | nil => simp [insertLe]
  | cons y ys ih =>
    rw [List.pairwise_cons] at hp
    obtain ⟨hy, hys⟩ := hp
    by_cases h : le x y = true
    · simp only [insertLe, if_pos h]
      refine List.Pairwise.cons ?_ (List.Pairwise.cons hy hys)
      intro z hz
      rcases List.mem_cons.1 hz with rfl | hz
      · exact h
      · exact htrans x y z hx (hl y (List.mem_cons_self y ys))
          (hl z (List.mem_cons_of_mem y hz)) h (hy z hz)
    · simp only [insertLe, if_neg h]
      refine List.Pairwise.cons ?_
        (ih (fun a ha => hl a (List.mem_cons_of_mem y ha)) hys)
      intro z hz
      rcases (mem_insertLe le x ys z).1 hz with rfl | hz
      · rcases htot z y hx (hl y (List.mem_cons_self y ys)) with h1 | h2
        · exact absurd h1 h
        · exact h2
      · exact hy z hz

theorem pairwise_isortLe {α : Type} (le : α → α → Bool) (P : α → Prop)
    (htot : ∀ a b, P a → P b → le a b = true ∨ le b a = true)
    (htrans : ∀ a b c, P a → P b → P c →
      le a b = true → le b c = true → le a c = true)
    (l : List α) (hl : ∀ y ∈ l, P y) :
    (isortLe le l).Pairwise (fun a b => le a b = true) := by
  induction l with
  | nil => simp [isortLe]
  | cons x xs ih =>
    exact pairwise_insertLe le P htot htrans x (isortLe le xs)
      (hl x (List.mem_cons_self x xs))
      (fun a ha => hl a (List.mem_cons_of_mem x ((perm_isortLe le xs).subset ha)))
      (ih (fun a ha => hl a (List.mem_cons_of_mem x ha)))

theorem matchGt_iff (o : Option Ordering) :
    (match o with | some Ordering.gt => false | _ => true) = true ↔
      o ≠ some Ordering.gt := by
  rcases o with _ | o
  · simp
  · cases o <;> simp

theorem rustLe_iff (a b : Process) :
    rustLe a b = true ↔
      cmpF b.memory_usage_percent a.memory_usage_percent ≠
        some Ordering.gt :=
  matchGt_iff (cmpF b.memory_usage_percent a.memory_usage_percent)

theorem cmpF_gt_swap : ∀ {u v : FVal},
    cmpF u v = some Ordering.gt → cmpF v u = some Ordering.lt := by
  intro u v h
  cases u with
  | num a =>
    cases v with
    | num b =>
      simp only [cmpF, Option.some_inj] at h ⊢
      exact compare_lt_iff_lt.mpr (compare_gt_iff_gt.mp h)
    | nan => simp [cmpF] at h
    | inf => simp [cmpF] at h
    | ninf => rfl
  | nan => simp [cmpF] at h
  | inf =>
    cases v with
    | num b => rfl
    | nan => simp [cmpF] at h
    | inf => simp [cmpF] at h
    | ninf => rfl
  | ninf => cases v <;> simp [cmpF] at h

theorem rustLe_total (a b : Process) :
    rustLe a b = true ∨ rustLe b a = true := by
  by_cases h : cmpF b.memory_usage_percent a.memory_usage_percent =
      some Ordering.gt
  · right
    rw [rustLe_iff, cmpF_gt_swap h]
    simp
  · left
    exact (rustLe_iff a b).mpr h

theorem rustLe_num_iff {a b : Process} {qa qb : ℚ}
    (ha : a.memory_usage_percent = .num qa)
    (hb : b.memory_usage_percent = .num qb) :
    rustLe a b = true ↔ qb ≤ qa := by
  rw [rustLe_iff, ha, hb]
  simp only [cmpF, ne_eq, Option.some_inj]
  exact compare_le_iff_le


theorem rustLe_of_key_eq {x y : Process}
    (h : x.memory_usage_percent = y.memory_usage_percent) :
    rustLe x y = true := by
  rw [rustLe_iff, ← h]
  cases hv : x.memory_usage_percent with
  | num q => simp [cmpF, compare_gt_iff_gt]
  | nan => simp [cmpF]
  | inf => simp [cmpF]
  | ninf => simp [cmpF]

theorem filter_insertLe_key (x : Process) (l : List Process) (k : FVal) :
    (insertLe rustLe x l).filter
        (fun p => decide (p.memory_usage_percent = k)) =
      if x.memory_usage_percent = k then
        x :: l.filter (fun p => decide (p.memory_usage_percent = k))
      else l.filter (fun p => decide (p.memory_usage_percent = k)) := by
  induction l with
  | nil =>
    by_cases hk : x.memory_usage_percent = k
    · simp [insertLe, hk]
    · simp [insertLe, hk]
  | cons y ys ih =>
    by_cases hxy : rustLe x y = true
    · simp only [insertLe, if_pos hxy]
      by_cases hk : x.memory_usage_percent = k
      · simp [List.filter_cons, hk]
      · simp [List.filter_cons, hk]
    · simp only [insertLe, if_neg hxy]
      by_cases hk : x.memory_usage_percent = k
      · have hyk : ¬ y.memory_usage_percent = k := by
          intro hy
          exact hxy (rustLe_of_key_eq (hk.trans hy.symm))
        simp [List.filter_cons, hk, hyk, ih]
      · simp [List.filter_cons, hk, ih]

theorem filter_isortLe_key (l : List Process) (k : FVal) :
    (isortLe rustLe l).filter
        (fun p => decide (p.memory_usage_percent = k)) =
      l.filter (fun p => decide (p.memory_usage_percent = k)) := by
  induction l with
  | nil => rfl
  | cons x xs ih =>
    simp only [isortLe]
    rw [filter_insertLe_key]
    by_cases hk : x.memory_usage_percent = k
    · simp [List.filter_cons, hk, ih]
    · simp [List.filter_cons, hk, ih]

theorem memPercent_num {mb t : Nat} (ht : t ≠ 0) :
    memPercent mb t = .num ((mb : ℚ) / (t : ℚ) * 100) := by
  have ht' : ((t : ℚ) = 0) = False := by
    simp [Nat.cast_eq_zero, ht]
  simp [memPercent, fdiv, fmul, ht']

theorem memPercent_zero (mb : Nat) :
    memPercent mb 0 = if mb = 0 then FVal.nan else FVal.inf := by
  by_cases hm : mb = 0
  · simp [memPercent, hm, fdiv, fmul]
  · have h2 : (0 : ℚ) < (mb : ℚ) := by
      exact_mod_cast Nat.pos_of_ne_zero hm
    have h1 : ¬ ((mb : ℚ) = 0) := ne_of_gt h2
    norm_num [memPercent, fdiv, fmul, hm, h1, h2]

theorem tick_processes {m : SystemMonitor} {env : ProviderEnv}
    {s : SystemMonitor} (hm : m.is_monitoring = true)
    (hu : update m .tick env = some s) :
    s.processes = tickProcesses env := by
  unfold update at hu
  rw [if_pos hm] at hu
  rcases hcd : calculate_disk_usage env.disks with _ | du
  · rw [hcd] at hu
    exact absurd hu (by simp)
  · rw [hcd] at hu
    simp only [Option.some_inj] at hu
    rw [← hu]

theorem sumTotal64_eq (disks : List DiskRaw) (acc : Nat)
    (h : acc + (disks.map (fun d => d.total_space)).sum < 2 ^ 64) :
    sumTotal64 acc disks =
      some (acc + (disks.map (fun d => d.total_space)).sum) := by
  induction disks generalizing acc with
  | nil => simp [sumTotal64]
  | cons d ds ih =>
    simp only [List.map_cons, List.sum_cons] at h
    have h1 : acc + d.total_space < 2 ^ 64 := by omega
    have hadd : add64 acc d.total_space = some (acc + d.total_space) :=
      if_pos h1
    have step : sumTotal64 acc (d :: ds) =
        sumTotal64 (acc + d.total_space) ds := by
      simp [sumTotal64, hadd]
    rw [step, ih (acc + d.total_space) (by omega)]
    congr 1
    simp only [List.map_cons, List.sum_cons]
    omega

theorem sumUsed64_eq (disks : List DiskRaw) (acc : Nat)
    (hav : ∀ d ∈ disks, d.available_space ≤ d.total_space)
    (h : acc +
        (disks.map (fun d => d.total_space - d.available_space)).sum <
      2 ^ 64) :
    sumUsed64 acc disks =
      some (acc +
        (disks.map (fun d => d.total_space - d.available_space)).sum) := by
  induction disks generalizing acc with
  | nil => simp [sumUsed64]
  | cons d ds ih =>
    simp only [List.map_cons, List.sum_cons] at h
    have hd := hav d (List.mem_cons_self d ds)
    have h1 : acc + (d.total_space - d.available_space) < 2 ^ 64 := by omega
    have hsub : sub64 d.total_space d.available_space =
        some (d.total_space - d.available_space) := if_pos hd
    have hadd : add64 acc (d.total_space - d.available_space) =
        some (acc + (d.total_space - d.available_space)) := if_pos h1
    have step : sumUsed64 acc (d :: ds) =
        sumUsed64 (acc + (d.total_space - d.available_space)) ds := by
      simp [sumUsed64, hsub, hadd]
    rw [step, ih _ (fun a ha => hav a (List.mem_cons_of_mem d ha)) (by omega)]
    congr 1
    simp only [List.map_cons, List.sum_cons]
    omega

theorem sumUsed64_bad (disks : List DiskRaw) (acc : Nat)
    (hbound : acc + (disks.map (fun d => d.total_space)).sum < 2 ^ 64)
    (hbad : ∃ d ∈ disks, d.total_space < d.available_space) :
    sumUsed64 acc disks = none := by
  induction disks generalizing acc with
  | nil =>
    rcases hbad with ⟨d, hd, _⟩
    exact absurd hd (List.not_mem_nil d)
  | cons d ds ih =>
    simp only [List.map_cons, List.sum_cons] at hbound
    by_cases hd : d.available_space ≤ d.total_space
    · have h1 : acc + (d.total_space - d.available_space) < 2 ^ 64 := by
        omega
      have hsub : sub64 d.total_space d.available_space =
          some (d.total_space - d.available_space) := if_pos hd
      have hadd : add64 acc (d.total_space - d.available_space) =
          some (acc + (d.total_space - d.available_space)) := if_pos h1
      have step : sumUsed64 acc (d :: ds) =
          sumUsed64 (acc + (d.total_space - d.available_space)) ds := by
        simp [sumUsed64, hsub, hadd]
      rw [step]
      apply ih
      · omega
      · rcases hbad with ⟨e, he, hbe⟩
        rcases List.mem_cons.1 he with rfl | he
        · exact absurd hbe (not_lt.mpr hd)
        · exact ⟨e, he, hbe⟩
    · have hsub : sub64 d.total_space d.available_space = none :=
        if_neg hd
      simp [sumUsed64, hsub]

theorem sum_sub_le (disks : List DiskRaw) :
    (disks.map (fun d => d.total_space - d.available_space)).sum ≤
      (disks.map (fun d => d.total_space)).sum := by
  induction disks with
  | nil => simp
  | cons d ds ih =>
    simp only [List.map_cons, List.sum_cons]
    have : d.total_space - d.available_space ≤ d.total_space :=
      Nat.sub_le _ _
    omega

theorem cmpF_lt_swap : ∀ {u v : FVal},
    cmpF u v = some Ordering.lt → cmpF v u = some Ordering.gt := by
  intro u v h
  cases u with
  | num a =>
    cases v with
    | num b =>
      simp only [cmpF, Option.some_inj] at h ⊢
      exact compare_gt_iff_gt.mpr (compare_lt_iff_lt.mp h)
    | nan => simp [cmpF] at h
    | inf => rfl
    | ninf => simp [cmpF] at h
  | nan => simp [cmpF] at h
  | inf => cases v <;> simp [cmpF] at h
  | ninf =>
    cases v with
    | num b => rfl
    | nan => simp [cmpF] at h
    | inf => rfl
    | ninf => simp [cmpF] at h

/-- C1: the claim says the logging tick is active only when the interval
text parses to a positive integer, with no hidden fall-back.  False on the
code: with monitoring and save-to-file on, `IntervalChanged("abc")` leaves
the logging tick ACTIVE with the hidden default period 3
(`src/system_monitor.rs:590-597`), because the parse failure falls back to
`3` and only emptiness of the text disables the tick. -/
theorem C1_cex :
    mMon.is_monitoring = true ∧ mMon.save_to_file = true ∧
    parseU64 "abc" = none ∧
    (update mMon (.intervalChanged "abc") envW).map
      (fun m' => loggingPeriods (subscription m')) = some [3] := by
  decide

/-- C1 (amended): with monitoring and save-to-file on, after
`IntervalChanged(t)` the logging tick is inactive iff `t` is empty;
otherwise it is active with period `parse(t)` when `t` parses as `u64`
and with the fall-back default period 3 when it does not (so `""` is
inactive, `"2"` has period 2, and `"abc"`/`"-5"` have period 3). -/
theorem C1_default_three (m : SystemMonitor) (env : ProviderEnv)
    (t : String) (hm : m.is_monitoring = true)
    (hs : m.save_to_file = true) :
    (update m (.intervalChanged t) env).map
        (fun m' => loggingPeriods (subscription m')) =
      some (if t = "" then [] else [(parseU64 t).getD 3]) := by
  by_cases ht : t = ""
  · subst ht
    simp [update, subscription, loggingPeriods, hm, hs]
  · simp [update, subscription, loggingPeriods, hm, hs, ht]

theorem C1_witness :
    mMon.is_monitoring = true ∧ mMon.save_to_file = true ∧
    (update mMon (.intervalChanged "-5") envW).map
      (fun m' => loggingPeriods (subscription m')) = some [3] := by
  refine ⟨rfl, rfl, ?_⟩
  have h := C1_default_three mMon envW "-5" rfl rfl
  rw [h]
  decide

/-- C2: the claim (and the specification) require a log-store I/O failure
to be recovered per tick; the code instead panics.  Each of the three
fallible steps of `log_metrics` (`src/utils.rs:30-37`) is wrapped in
`.expect(...)`, so a serialization failure, an open failure, or a
write failure terminates the process instead of skipping the write. -/
theorem C2_fatal :
    log_metrics mMon "2024-01-01 00:00:00" ⟨false, true, true⟩ [] =
      .panicked "Failed to serialize system data" ∧
    log_metrics mMon "2024-01-01 00:00:00" ⟨true, false, true⟩ [] =
      .panicked "Failed to open log file" ∧
    log_metrics mMon "2024-01-01 00:00:00" ⟨true, true, false⟩ [] =
      .panicked "Failed to write data to log file" :=
  ⟨rfl, rfl, rfl⟩

/-- C3: the claim says `LogTick` is a no-op when logging is disabled.
False on the code: the `LogToFile` arm (`src/system_monitor.rs:524-526`)
calls `log_metrics` unconditionally, so with `save_to_file = false` a
record is still appended (count goes from 0 to 1). -/
theorem C3_cex :
    mNoLog.save_to_file = false ∧
    recCount (update_log mNoLog .logToFile "t" ioOk []) = some 1 := by
  exact ⟨rfl, rfl⟩

/-- C3 (amended): processing `LogToFile` always invokes the Logger with
the current snapshot, regardless of `save_to_file`, and leaves the state
unchanged; the gating happens upstream in `subscription`, which emits no
`LogToFile` events when `save_to_file` is false. -/
theorem C3_always_logs (m : SystemMonitor) (env : ProviderEnv)
    (ts : String) (file : List Json) :
    update m .logToFile env = some m ∧
    update_log m .logToFile ts ioOk file =
      .ok (file ++ [serializeSystemData (systemData m ts)]) ∧
    (m.save_to_file = false → loggingPeriods (subscription m) = []) := by
  refine ⟨rfl, rfl, ?_⟩
  intro hs
  by_cases hm : m.is_monitoring = true <;>
    simp [subscription, loggingPeriods, hs, hm]

theorem C3_witness :
    update mNoLog .logToFile envW = some mNoLog ∧
    update_log mNoLog .logToFile "t" ioOk [] =
      .ok ([] ++ [serializeSystemData (systemData mNoLog "t")]) ∧
    loggingPeriods (subscription mNoLog) = [] := by
  have h := C3_always_logs mNoLog envW "t" []
  exact ⟨h.1, h.2.1, h.2.2 rfl⟩

/-- C4: the claim (and the specification) say every `DiskInfo` built by
the Sampler has `used_disk_percent = 0` when the disk's total is 0.  The
code violates this: the per-`Tick` rebuild
(`src/system_monitor.rs:475-489`) has no guard at all, so a disk with
total 0 gets `(0-0)/0*100 = NaN`; and the startup guard
(`src/system_monitor.rs:339-345`) tests the AGGREGATE total
`total_disk > 0` while dividing by the per-disk total, so a zero-total
disk next to a non-empty disk still divides by zero.  Only when every
disk has total 0 does the startup path return 0. -/
theorem C4_zero_total_nan :
    tickDisksInfo [⟨"d0", "k", "m", 0, 0⟩] =
      [⟨"d0", "k", "m", 0, 0, FVal.nan⟩] ∧
    (newDisksInfo [⟨"d0", "k", "m", 0, 0⟩, ⟨"d1", "k", "m", 100, 50⟩]).map
        (fun l => l.map (fun d => d.used_disk_percent)) =
      some [FVal.nan, FVal.num 50] ∧
    newDisksInfo [⟨"d0", "k", "m", 0, 0⟩] =
      some [⟨"d0", "k", "m", 0, 0, FVal.num 0⟩] := by
  refine ⟨?_, ?_, ?_⟩ <;>
    norm_num [tickDisksInfo, newDisksInfo, diskPercent, fsub, fdiv, fmul,
      calculate_disk_usage, sumTotal64, sumUsed64, add64, sub64]

/-- C5: the claim says the per-process memory percentage short-circuits to
0 when total memory is 0.  False on the code: the computation
`process.memory / total_memory * 100` (`src/system_monitor.rs:505-506`)
has no guard, so with `total_memory = 0` the Tick sampler stores NaN (for
a process of memory 0; +infinity for a positive one) instead of 0. -/
theorem C5_cex :
    memPercent 0 0 = FVal.nan ∧ memPercent 7 0 = FVal.inf ∧
    (update mMon .tick envZeroMem).map
        (fun s => s.processes.map (fun p => p.memory_usage_percent)) =
      some [FVal.nan] := by
  decide

/-- C5 (amended): there is no short-circuit; when the provider reports
total memory 0, every per-process memory percentage produced by a `Tick`
is NaN (process memory 0) or +infinity (positive process memory) -- the
division itself cannot panic -- and on the startup path the `>= 0.01`
threshold filter drops the NaN entries, so every surviving percentage is
+infinity. -/
theorem C5_no_short_circuit (m : SystemMonitor) (env : ProviderEnv)
    (s : SystemMonitor) (hm : m.is_monitoring = true)
    (h0 : env.total_memory = 0) (hu : update m .tick env = some s) :
    (∀ p ∈ s.processes,
      p.memory_usage_percent = FVal.nan ∨
        p.memory_usage_percent = FVal.inf) ∧
    ∀ diff : FVal, ∀ p ∈ newProcesses env diff,
      p.memory_usage_percent = FVal.inf := by
  constructor
  · intro p hp
    rw [tick_processes hm hu] at hp
    have hp2 : p ∈ buildProcs env :=
      (perm_isortLe rustLe (buildProcs env)).subset hp
    obtain ⟨q, hq, rfl⟩ := List.mem_map.1 hp2
    simp only [h0]
    rw [memPercent_zero]
    by_cases hq0 : q.memory = 0
    · left
      rw [if_pos hq0]
    · right
      rw [if_neg hq0]
  · intro diff p hp
    obtain ⟨q, hq, hpq⟩ := List.mem_filterMap.1 hp
    simp only [h0, memPercent_zero] at hpq
    by_cases hq0 : q.memory = 0
    · rw [if_pos hq0] at hpq
      simp [fge, cmpF] at hpq
    · rw [if_neg hq0] at hpq
      simp only [fge, cmpF, if_true] at hpq
      rw [← Option.some_inj.mp hpq]

theorem C5_witness :
    mMon.is_monitoring = true ∧ envZeroMem.total_memory = 0 ∧
    update mMon .tick envZeroMem = some sZ ∧
    ((∀ p ∈ sZ.processes,
        p.memory_usage_percent = FVal.nan ∨
          p.memory_usage_percent = FVal.inf) ∧
      ∀ diff : FVal, ∀ p ∈ newProcesses envZeroMem diff,
        p.memory_usage_percent = FVal.inf) :=
  ⟨rfl, rfl, rfl, C5_no_short_circuit mMon envZeroMem sZ rfl rfl rfl⟩

/-- C6: `ToggleMonitoring` flips only `is_monitoring`
(`src/system_monitor.rs:531-533`); every other field of the state -- the
whole last snapshot and the other flags -- is unchanged, and a second
toggle leaves the snapshot fields equal to the original ones. -/
theorem C6_frame (m : SystemMonitor) (env env2 : ProviderEnv) :
    ∃ m', update m .toggleMonitoring env = some m' ∧
      m'.is_monitoring = !m.is_monitoring ∧
      m'.system_base_info = m.system_base_info ∧
      m'.cpu_usage = m.cpu_usage ∧
      m'.no_of_processes = m.no_of_processes ∧
      m'.physical_cores = m.physical_cores ∧
      m'.logical_processors = m.logical_processors ∧
      m'.processors_info = m.processors_info ∧
      m'.memory_usage = m.memory_usage ∧
      m'.swap_memory_usage = m.swap_memory_usage ∧
      m'.disk_usage = m.disk_usage ∧
      m'.disks_info = m.disks_info ∧
      m'.network_sent = m.network_sent ∧
      m'.network_received = m.network_received ∧
      m'.processes = m.processes ∧
      m'.save_to_file = m.save_to_file ∧
      m'.interval_in_secs = m.interval_in_secs ∧
      ∃ m2, update m' .toggleMonitoring env2 = some m2 ∧
        m2.is_monitoring = m.is_monitoring ∧
        m2.processes = m.processes ∧
        m2.memory_usage = m.memory_usage ∧
        m2.swap_memory_usage = m.swap_memory_usage ∧
        m2.disk_usage = m.disk_usage ∧
        m2.disks_info = m.disks_info ∧
        m2.network_sent = m.network_sent ∧
        m2.network_received = m.network_received := by
  refine ⟨{ m with is_monitoring := !m.is_monitoring }, rfl, rfl, rfl, rfl,
    rfl, rfl, rfl, rfl, rfl, rfl, rfl, rfl, rfl, rfl, rfl, rfl, rfl, ?_⟩
  refine ⟨{ m with is_monitoring := !(!m.is_monitoring) }, rfl, ?_, rfl,
    rfl, rfl, rfl, rfl, rfl, rfl⟩
  simp

/-- C9: applying `ToggleMonitoring` twice returns the state exactly to its
original value -- the transition writes only the boolean `is_monitoring`
(`src/system_monitor.rs:531-533`) and Boolean negation is self-inverse. -/
theorem C9_involution (m : SystemMonitor) (env env2 : ProviderEnv) :
    (update m .toggleMonitoring env).bind
      (fun m' => update m' .toggleMonitoring env2) = some m := by
  show some { m with is_monitoring := !(!m.is_monitoring) } = some m
  rw [Bool.not_not]

/-- C7: after a `Tick` in monitoring state, the process list is the
provider-order list stably sorted by descending memory percentage: it is a
permutation of the (unsorted) rebuilt list, no element's percentage
compares strictly below a later one, and for every percentage value the
processes carrying it appear exactly as in provider order
(`src/system_monitor.rs:502-520`; `Vec::sort_by` is stable). -/
theorem C7_sorted_stable (m : SystemMonitor) (env : ProviderEnv)
    (s : SystemMonitor) (hm : m.is_monitoring = true)
    (hu : update m .tick env = some s) :
    s.processes.Perm (buildProcs env) ∧
    s.processes.Pairwise (fun a b =>
      cmpF a.memory_usage_percent b.memory_usage_percent ≠
        some Ordering.lt) ∧
    ∀ k : FVal,
      s.processes.filter (fun p => decide (p.memory_usage_percent = k)) =
        (buildProcs env).filter
          (fun p => decide (p.memory_usage_percent = k)) := by
  have hsp := tick_processes hm hu
  refine ⟨?_, ?_, ?_⟩
  · rw [hsp]
    exact perm_isortLe rustLe (buildProcs env)
  · rw [hsp]
    have key : (isortLe rustLe (buildProcs env)).Pairwise
        (fun a b => rustLe a b = true) := by
      by_cases h0 : env.total_memory = 0
      · refine pairwise_isortLe rustLe
          (fun p => p.memory_usage_percent = FVal.nan ∨
            p.memory_usage_percent = FVal.inf) ?_ ?_ _ ?_
        · intro a b ha hb
          left
          rw [rustLe_iff]
          rcases hb with hb | hb <;> rcases ha with ha | ha <;>
            rw [hb, ha] <;> simp [cmpF]
        · intro a b c ha hb hc h1 h2
          rw [rustLe_iff]
          rcases hc with hc | hc <;> rcases ha with ha | ha <;>
            rw [hc, ha] <;> simp [cmpF]
        · intro y hy
          obtain ⟨q, hq, rfl⟩ := List.mem_map.1 hy
          simp only [h0]
          rw [memPercent_zero]
          by_cases hq0 : q.memory = 0
          · left
            rw [if_pos hq0]
          · right
            rw [if_neg hq0]
      · refine pairwise_isortLe rustLe
          (fun p => ∃ q : ℚ, p.memory_usage_percent = .num q) ?_ ?_ _ ?_
        · rintro a b ⟨qa, ha⟩ ⟨qb, hb⟩
          rcases le_total qb qa with h | h
          · exact Or.inl ((rustLe_num_iff ha hb).mpr h)
          · exact Or.inr ((rustLe_num_iff hb ha).mpr h)
        · rintro a b c ⟨qa, ha⟩ ⟨qb, hb⟩ ⟨qc, hc⟩ h1 h2
          exact (rustLe_num_iff ha hc).mpr
            (le_trans ((rustLe_num_iff hb hc).mp h2)
              ((rustLe_num_iff ha hb).mp h1))
        · intro y hy
          obtain ⟨q, hq, rfl⟩ := List.mem_map.1 hy
          exact ⟨_, memPercent_num h0⟩
    refine key.imp ?_
    intro a b hab hlt
    exact absurd (cmpF_lt_swap hlt) ((rustLe_iff a b).mp hab)
  · rw [hsp]
    exact fun k => filter_isortLe_key (buildProcs env) k

theorem C7_witness :
    mMon.is_monitoring = true ∧
    update mMon .tick envW = some sW ∧
    (sW.processes.Perm (buildProcs envW) ∧
      sW.processes.Pairwise (fun a b =>
        cmpF a.memory_usage_percent b.memory_usage_percent ≠
          some Ordering.lt) ∧
      ∀ k : FVal,
        sW.processes.filter
            (fun p => decide (p.memory_usage_percent = k)) =
          (buildProcs envW).filter
            (fun p => decide (p.memory_usage_percent = k))) :=
  ⟨rfl, rfl, C7_sorted_stable mMon envW sW rfl rfl⟩

/-- C10: for a disk list in which every disk's available bytes are at most
its total bytes (and whose total sum fits in `u64`),
`calculate_disk_usage` returns exactly
`(Σ (total - available), Σ total)` -- the checked subtraction never takes
its error branch -- with `used ≤ total`; and when some disk reports
`available > total`, the subtraction's error branch is reached
(`src/utils.rs:11-17`). -/
theorem C10_disk_usage (disks : List DiskRaw)
    (hfit : (disks.map (fun d => d.total_space)).sum < 2 ^ 64) :
    ((∀ d ∈ disks, d.available_space ≤ d.total_space) →
      calculate_disk_usage disks =
        some
          ((disks.map (fun d => d.total_space - d.available_space)).sum,
            (disks.map (fun d => d.total_space)).sum) ∧
      (disks.map (fun d => d.total_space - d.available_space)).sum ≤
        (disks.map (fun d => d.total_space)).sum) ∧
    ((∃ d ∈ disks, d.total_space < d.available_space) →
      calculate_disk_usage disks = none) := by
  have hle := sum_sub_le disks
  constructor
  · intro hav
    have ht := sumTotal64_eq disks 0 (by omega)
    have hu := sumUsed64_eq disks 0 hav (by omega)
    simp only [Nat.zero_add] at ht hu
    constructor
    · unfold calculate_disk_usage
      rw [ht, hu]
    · exact hle
  · intro hbad
    have ht := sumTotal64_eq disks 0 (by omega)
    have hb := sumUsed64_bad disks 0 (by omega) hbad
    unfold calculate_disk_usage
    rw [ht, hb]

theorem C10_witness :
    calculate_disk_usage
        [⟨"a", "k", "m", 100, 30⟩, ⟨"b", "k", "m", 50, 50⟩] =
      some (70, 150) := by
  have h := C10_disk_usage
    [⟨"a", "k", "m", 100, 30⟩, ⟨"b", "k", "m", 50, 50⟩] (by decide)
  exact ((h.1 (by decide)).1).trans (by decide)

/-- C8: the claim names the record fields `memory_usage_bytes`,
`swap_memory_usage_bytes`, `disk_usage_bytes`, `network_sent_bytes`,
`network_received_bytes`, but the record serialized by `log_metrics`
carries the singular Rust field names of `SystemData`
(`src/models.rs:15-24`): `memory_usage_byte`, `swap_memory_usage_byte`,
`disk_usage_byte`, `network_sent_byte`, `network_received_byte`. -/
theorem C8_cex :
    fieldNames (serializeSystemData (systemData mMon "t")) =
      ["timestamp", "cpu_usage_percent", "memory_usage_byte",
        "swap_memory_usage_byte", "disk_usage_byte", "network_sent_byte",
        "network_received_byte"] ∧
    fieldNames (serializeSystemData (systemData mMon "t")) ≠
      ["timestamp", "cpu_usage_percent", "memory_usage_bytes",
        "swap_memory_usage_bytes", "disk_usage_bytes",
        "network_sent_bytes", "network_received_bytes"] := by
  constructor
  · rfl
  · decide

/-- C8 (amended): every successful `append(snapshot)` call increases the
log store's record count by exactly 1, parsing the newly written record
back yields exactly the serialized snapshot's field values, and the
record carries exactly the fields `timestamp`, `cpu_usage_percent`,
`memory_usage_byte` [used, total], `swap_memory_usage_byte` [used,
total], `disk_usage_byte` [used, total], `network_sent_byte` and
`network_received_byte` (`src/utils.rs:19-38`, `src/models.rs:15-24`). -/
theorem C8_append_roundtrip (m : SystemMonitor) (ts : String)
    (file : List Json) :
    log_metrics m ts ioOk file =
      .ok (file ++ [serializeSystemData (systemData m ts)]) ∧
    (file ++ [serializeSystemData (systemData m ts)]).length =
      file.length + 1 ∧
    parseSystemData (serializeSystemData (systemData m ts)) =
      some (systemData m ts) ∧
    fieldNames (serializeSystemData (systemData m ts)) =
      ["timestamp", "cpu_usage_percent", "memory_usage_byte",
        "swap_memory_usage_byte", "disk_usage_byte", "network_sent_byte",
        "network_received_byte"] := by
  refine ⟨rfl, by simp, rfl, rfl⟩
